import Mathlib

/- Shallow embedding of the event-sourcing core of HadiAbu/event-sourcing.

   Sources embedded:
   - src/domain/events.ts   : Event union (four tagged variants)
   - src/domain/commands.ts : Command union (four tagged variants)
   - src/domain/aggregate.ts: AccountAggregate (the Decider) and
     AccountProjection (the read model)
   - src/infrastructure/eventStore.ts (unnamed/part_000):
     InMemoryEventStore.saveEvents

   Modelling conventions: TypeScript class methods that mutate `this`
   become state-passing functions returning the post-call state; a
   method that throws returns the entry state paired with the error
   (in TS a throw before any mutation leaves the object untouched).
   `uuidv4()` and `new Date()` inside the command handlers are
   nondeterministic inputs and are threaded as explicit parameters
   (freshEventId, now).  TS numbers used as sequence numbers become
   Nat; monetary amounts become Int; timestamps become Nat. -/

/- events.ts: the Event discriminated union.  Each constructor is one
   EVENT_TYPES tag together with the data payload of its interface
   (USER_CREATED, FUNDS_DEPOSITED, FUNDS_WITHDRAWN, ACCOUNT_CLOSED). -/
inductive EventData where
  | userCreated (userId name email : String)
  | fundsDeposited (amount : Int) (currency : String)
  | fundsWithdrawn (amount : Int) (currency : String)
  | accountClosed (reason : String)
deriving DecidableEq, Repr

/- events.ts BaseEvent: eventId, aggregateId, eventType, timestamp,
   version, data.  The eventType tag and the data payload are fused in
   the EventData sum, exactly as the TS union ties them together. -/
structure Event where
  eventId : String
  aggregateId : String
  timestamp : Nat
  version : Nat
  data : EventData
deriving DecidableEq, Repr

/- aggregate.ts lines 22-31: interface AccountState. -/
structure AccountState where
  aggregateId : String
  version : Nat
  userId : Option String
  name : Option String
  email : Option String
  balance : Int
  currency : String
  isClosed : Bool
deriving DecidableEq, Repr

/- aggregate.ts lines 36-44: the zero state built by the constructor. -/
def initialState (aggregateId : String) : AccountState :=
  { aggregateId := aggregateId
    version := 0
    userId := none
    name := none
    email := none
    balance := 0
    currency := "USD"
    isClosed := false }

/- aggregate.ts lines 162-187: applyEvent.  First
   `this.state.version = event.version`, then the per-type switch.
   Note: the FUNDS_DEPOSITED branch updates only the balance; the
   currency field of the state is never written by any branch. -/
def applyEvent (s : AccountState) (e : Event) : AccountState :=
  let s := { s with version := e.version }
  match e.data with
  | .userCreated userId name email =>
      { s with userId := some userId, name := some name, email := some email }
  | .fundsDeposited amount _ =>
      { s with balance := s.balance + amount }
  | .fundsWithdrawn amount _ =>
      { s with balance := s.balance - amount }
  | .accountClosed _ =>
      { s with isClosed := true }

/- aggregate.ts lines 47-51: loadFromHistory iterates applyEvent. -/
def loadFromHistory (s : AccountState) (events : List Event) : AccountState :=
  events.foldl applyEvent s

/- aggregate.ts lines 189-191: getState returns a defensive spread
   copy of the state record. -/
def getState (s : AccountState) : AccountState :=
  { aggregateId := s.aggregateId
    version := s.version
    userId := s.userId
    name := s.name
    email := s.email
    balance := s.balance
    currency := s.currency
    isClosed := s.isClosed }

/- commands.ts: the Command union, one constructor per COMMAND_TYPES
   tag with its data payload. -/
inductive CommandData where
  | createUser (name email : String)
  | depositFunds (amount : Int) (currency : String)
  | withdrawFunds (amount : Int) (currency : String)
  | closeAccount (reason : String)
deriving DecidableEq, Repr

/- commands.ts BaseCommand: commandId, aggregateId, commandType,
   timestamp, plus the per-type data (fused into CommandData). -/
structure Command where
  commandId : String
  aggregateId : String
  timestamp : Nat
  data : CommandData
deriving DecidableEq, Repr

/- aggregate.ts: each thrown Error message of the command handlers. -/
inductive DomainError where
  | userAlreadyExists
  | cannotDepositToClosed
  | depositAmountNotPositive
  | cannotWithdrawFromClosed
  | withdrawalAmountNotPositive
  | insufficientFunds
  | accountAlreadyClosed
deriving DecidableEq, Repr

/- aggregate.ts lines 54-159: handleCommand dispatching to
   handleCreateUser, handleDepositFunds, handleWithdrawFunds,
   handleCloseAccount.  Each handler is a precondition check followed
   by construction of one event with version = this.state.version + 1;
   none of them assigns to this.state, so the post-call state is the
   entry state.  The CREATE_USER guard `if (this.state.userId)` is JS
   truthiness: it throws exactly when userId is defined and non-empty. -/
def handleCommand (s : AccountState) (cmd : Command) (freshEventId : String)
    (now : Nat) : Except DomainError (List Event) × AccountState :=
  match cmd.data with
  | .createUser name email =>
      if (s.userId.getD "") ≠ "" then
        (.error .userAlreadyExists, s)
      else
        (.ok [{ eventId := freshEventId
                aggregateId := cmd.aggregateId
                timestamp := now
                version := s.version + 1
                data := .userCreated cmd.aggregateId name email }], s)
  | .depositFunds amount currency =>
      if s.isClosed then
        (.error .cannotDepositToClosed, s)
      else if amount ≤ 0 then
        (.error .depositAmountNotPositive, s)
      else
        (.ok [{ eventId := freshEventId
                aggregateId := cmd.aggregateId
                timestamp := now
                version := s.version + 1
                data := .fundsDeposited amount currency }], s)
  | .withdrawFunds amount currency =>
      if s.isClosed then
        (.error .cannotWithdrawFromClosed, s)
      else if amount ≤ 0 then
        (.error .withdrawalAmountNotPositive, s)
      else if s.balance < amount then
        (.error .insufficientFunds, s)
      else
        (.ok [{ eventId := freshEventId
                aggregateId := cmd.aggregateId
                timestamp := now
                version := s.version + 1
                data := .fundsWithdrawn amount currency }], s)
  | .closeAccount reason =>
      if s.isClosed then
        (.error .accountAlreadyClosed, s)
      else
        (.ok [{ eventId := freshEventId
                aggregateId := cmd.aggregateId
                timestamp := now
                version := s.version + 1
                data := .accountClosed reason }], s)

/- eventStore.ts: the two throw sites of saveEvents. -/
inductive StoreError where
  | concurrency (expectedVersion currentVersion : Nat)
  | aggregateMismatch
  | nonSequentialVersion
deriving DecidableEq, Repr

/- eventStore.ts lines 18-19: the store owns a flat list of events. -/
structure InMemoryEventStore where
  events : List Event
deriving DecidableEq, Repr

/- eventStore.ts lines 27-33: currentVersion is Math.max over the
   versions of the existing events of the aggregate, or 0 when it has none. -/
def currentVersionOf (events : List Event) (aggregateId : String) : Nat :=
  let existingEvents := events.filter (fun e => e.aggregateId == aggregateId)
  match existingEvents.map (fun e => e.version) with
  | [] => 0
  | v :: vs => vs.foldl max v

/- eventStore.ts lines 42-49: the validation for-loop.  Each event in
   the batch is compared against aggregateId and against the FIXED
   currentVersion + 1 (the loop never advances currentVersion); the
   first violation throws. -/
def validateEvents (aggregateId : String) (currentVersion : Nat) :
    List Event → Option StoreError
  | [] => none
  | e :: rest =>
      if e.aggregateId ≠ aggregateId then some .aggregateMismatch
      else if e.version ≠ currentVersion + 1 then some .nonSequentialVersion
      else validateEvents aggregateId currentVersion rest

/- eventStore.ts lines 21-53: saveEvents.  Concurrency check, then the
   validation loop, then `this.events.push(...events)`.  A throw
   happens before the push, so the store component of the result is
   the entry store on every error. -/
def saveEvents (store : InMemoryEventStore) (aggregateId : String)
    (newEvents : List Event) (expectedVersion : Nat) :
    InMemoryEventStore × Option StoreError :=
  let currentVersion := currentVersionOf store.events aggregateId
  if currentVersion ≠ expectedVersion then
    (store, some (.concurrency expectedVersion currentVersion))
  else
    match validateEvents aggregateId currentVersion newEvents with
    | some err => (store, some err)
    | none => (⟨store.events ++ newEvents⟩, none)

/- accountView.ts (projections) lines 205-214: interface AccountView.
   Note that, unlike AccountState, it has no version field. -/
structure AccountView where
  aggregateId : String
  userId : Option String
  name : Option String
  email : Option String
  balance : Int
  currency : String
  isClosed : Bool
  lastActivity : Nat
deriving DecidableEq, Repr

/- The Map of the projection from aggregateId to view, modelled
   extensionally as a lookup function. -/
abbrev Views := String → Option AccountView

def emptyViews : Views := fun _ => none

/- accountView.ts lines 224-233: the lazily created zero view. -/
def initialView (aggregateId : String) (timestamp : Nat) : AccountView :=
  { aggregateId := aggregateId
    userId := none
    name := none
    email := none
    balance := 0
    currency := "USD"
    isClosed := false
    lastActivity := timestamp }

/- accountView.ts lines 236-260: the per-type switch of processEvent
   followed by the unconditional lastActivity update.  Note: the
   FUNDS_DEPOSITED branch sets the currency of the view from the event. -/
def applyToView (view : AccountView) (e : Event) : AccountView :=
  let view :=
    match e.data with
    | .userCreated userId name email =>
        { view with userId := some userId, name := some name, email := some email }
    | .fundsDeposited amount currency =>
        { view with balance := view.balance + amount, currency := currency }
    | .fundsWithdrawn amount _ =>
        { view with balance := view.balance - amount }
    | .accountClosed _ =>
        { view with isClosed := true }
  { view with lastActivity := e.timestamp }

/- accountView.ts lines 220-261: processEvent looks the view up,
   lazily creating it, applies the switch, and stores it back. -/
def processEvent (views : Views) (e : Event) : Views :=
  let view :=
    match views e.aggregateId with
    | some v => v
    | none => initialView e.aggregateId e.timestamp
  fun id => if id = e.aggregateId then some (applyToView view e) else views id

/- A for-loop calling processEvent once per event, in order. -/
def processAll : Views → List Event → Views
  | views, [] => views
  | views, e :: rest => processAll (processEvent views e) rest

/- accountView.ts line 275: this.views.clear(). -/
def clearViews (_ : Views) : Views := fun _ => none

/- accountView.ts lines 274-279: rebuildFromEvents clears the map and
   replays processEvent over the supplied events. -/
def rebuildFromEvents (views : Views) (events : List Event) : Views :=
  processAll (clearViews views) events

/- Helper lemmas about the Decider fold. -/

lemma applyEvent_currency (s : AccountState) (e : Event) :
    (applyEvent s e).currency = s.currency := by
  rcases e with ⟨eid, aid, ts, v, d⟩
  cases d <;> rfl

lemma applyEvent_version (s : AccountState) (e : Event) :
    (applyEvent s e).version = e.version := by
  rcases e with ⟨eid, aid, ts, v, d⟩
  cases d <;> rfl

lemma loadFromHistory_currency (events : List Event) (s : AccountState) :
    (loadFromHistory s events).currency = s.currency := by
  induction events generalizing s with
  | nil => rfl
  | cons e rest ih =>
      calc (loadFromHistory (applyEvent s e) rest).currency
          = (applyEvent s e).currency := ih (applyEvent s e)
        _ = s.currency := applyEvent_currency s e

lemma loadFromHistory_version_getLast (events : List Event) (s : AccountState)
    (e : Event) (h : events.getLast? = some e) :
    (loadFromHistory s events).version = e.version := by
  induction events generalizing s with
  | nil => simp at h
  | cons a rest ih =>
      cases rest with
      | nil =>
          simp at h
          subst h
          exact applyEvent_version s a
      | cons b rest2 =>
          rw [List.getLast?_cons_cons] at h
          exact ih (applyEvent s a) h

lemma handleCommand_state_unchanged (s : AccountState) (cmd : Command)
    (freshEventId : String) (now : Nat) :
    (handleCommand s cmd freshEventId now).2 = s := by
  rcases cmd with ⟨ci, ai, ts, d⟩
  cases d <;> simp only [handleCommand] <;> (repeat' split) <;> rfl

/- Concrete facts used by the store claims. -/

def batchFact1 : Event :=
  { eventId := "f1", aggregateId := "E", timestamp := 1, version := 1,
    data := .fundsDeposited 5 "USD" }

def batchFact2 : Event :=
  { eventId := "f2", aggregateId := "E", timestamp := 2, version := 2,
    data := .fundsDeposited 7 "USD" }

def batchFact1dup : Event :=
  { eventId := "f3", aggregateId := "E", timestamp := 3, version := 1,
    data := .fundsDeposited 9 "USD" }

/-- C1: the claim says a batch whose sequence values form an unbroken
ascending run starting at expectedVersion + 1 succeeds, in particular a
two-fact batch with sequences expectedVersion + 1 and expectedVersion + 2.
The code instead checks every batch event against the fixed
currentVersion + 1, so on an empty store the contiguous batch with
versions 1 and 2 is rejected with the non-sequential-version error and
nothing is appended, while a batch carrying version 1 twice is accepted
— contradicting the error message of the code itself and the gap-free
sequencing the store is meant to enforce. -/
theorem saveEvents_rejects_contiguous_two_fact_batch :
    saveEvents ⟨[]⟩ "E" [batchFact1, batchFact2] 0 =
      (⟨[]⟩, some StoreError.nonSequentialVersion) ∧
    (saveEvents ⟨[]⟩ "E" [batchFact1, batchFact1dup] 0).2 = none := by
  constructor
  · rfl
  · rfl

/-- C2: whenever expectedVersion differs from the current
version (the maximum stored sequence, 0 if none), saveEvents fails with
the concurrency error; and on every failure (concurrency or validation)
the stored log is returned unchanged. -/
theorem saveEvents_stale_version_fails_and_failures_leave_log_unchanged
    (store : InMemoryEventStore) (aggregateId : String)
    (newEvents : List Event) (expectedVersion : Nat) :
    (currentVersionOf store.events aggregateId ≠ expectedVersion →
      saveEvents store aggregateId newEvents expectedVersion =
        (store, some (StoreError.concurrency expectedVersion
          (currentVersionOf store.events aggregateId)))) ∧
    (∀ err, (saveEvents store aggregateId newEvents expectedVersion).2 = some err →
      (saveEvents store aggregateId newEvents expectedVersion).1 = store) := by
  constructor
  · intro h
    simp [saveEvents, h]
  · intro err
    unfold saveEvents
    dsimp only
    split
    · intro
      rfl
    · split
      · intro
        rfl
      · intro h
        simp at h

/-- C2 witness: on an empty store, appending with expectedVersion 3
fails with the concurrency error and leaves the log empty. -/
theorem saveEvents_stale_version_witness :
    saveEvents ⟨[]⟩ "E" [] 3 = (⟨[]⟩, some (StoreError.concurrency 3 0)) ∧
    (saveEvents ⟨[]⟩ "E" [] 3).1 = ⟨[]⟩ := by
  refine ⟨(saveEvents_stale_version_fails_and_failures_leave_log_unchanged ⟨[]⟩ "E" [] 3).1 (by decide),
    (saveEvents_stale_version_fails_and_failures_leave_log_unchanged ⟨[]⟩ "E" [] 3).2
      (StoreError.concurrency 3 0) (by decide)⟩

/-- C10: appending an empty batch with expectedVersion equal to the
current version of the entity succeeds (no error) and leaves the stored log
unchanged. -/
theorem saveEvents_empty_batch_noop (store : InMemoryEventStore)
    (aggregateId : String) (expectedVersion : Nat)
    (h : expectedVersion = currentVersionOf store.events aggregateId) :
    saveEvents store aggregateId [] expectedVersion = (store, none) := by
  subst h
  simp [saveEvents, validateEvents]

/-- C10 witness: on a store holding one fact at version 1 for entity E,
an empty append with expectedVersion 1 succeeds and changes nothing. -/
theorem saveEvents_empty_batch_noop_witness :
    saveEvents ⟨[batchFact1]⟩ "E" [] 1 = (⟨[batchFact1]⟩, none) :=
  saveEvents_empty_batch_noop ⟨[batchFact1]⟩ "E" 1 (by decide)

/-- C4: rebuildFromEvents on a projection holding any views whatsoever
produces exactly the views obtained by processing each fact in order on
a fresh, empty projection. -/
theorem rebuildFromEvents_eq_fresh_incremental_replay
    (views : Views) (events : List Event) :
    rebuildFromEvents views events = processAll emptyViews events := rfl

/-- C7: an add-funds intent against a closed state fails with the
domain error for deposits on closed accounts, and the Decider state
after the failed call is the entry state (same getState snapshot). -/
theorem deposit_on_closed_account_fails_state_unchanged
    (s : AccountState) (commandId aggregateId : String) (ts : Nat)
    (amount : Int) (currency freshEventId : String) (now : Nat)
    (h : s.isClosed = true) :
    handleCommand s ⟨commandId, aggregateId, ts, .depositFunds amount currency⟩
        freshEventId now =
      (.error .cannotDepositToClosed, s) ∧
    getState (handleCommand s ⟨commandId, aggregateId, ts, .depositFunds amount currency⟩
        freshEventId now).2 = getState s := by
  constructor
  · simp [handleCommand, h]
  · rw [handleCommand_state_unchanged]

/-- C7 witness: depositing 10 into a concrete closed account fails with
the closed-account domain error and leaves the state untouched. -/
theorem deposit_on_closed_account_witness :
    handleCommand { initialState "E" with isClosed := true }
        ⟨"c1", "E", 1, .depositFunds 10 "USD"⟩ "f1" 2 =
      (.error .cannotDepositToClosed, { initialState "E" with isClosed := true }) :=
  (deposit_on_closed_account_fails_state_unchanged
    { initialState "E" with isClosed := true } "c1" "E" 1 10 "USD" "f1" 2 rfl).1

/-- C8: handling any intent never modifies the internal Decider state —
the post-call state (hence the getState snapshot) equals the pre-call
state, so in particular the version is not advanced by emitting facts;
only applyEvent / loadFromHistory writes the version. -/
theorem handleCommand_does_not_modify_state (s : AccountState)
    (cmd : Command) (freshEventId : String) (now : Nat) :
    (handleCommand s cmd freshEventId now).2 = s ∧
    getState (handleCommand s cmd freshEventId now).2 = getState s ∧
    ((handleCommand s cmd freshEventId now).2).version = s.version := by
  refine ⟨handleCommand_state_unchanged s cmd freshEventId now, ?_, ?_⟩
  · rw [handleCommand_state_unchanged]
  · rw [handleCommand_state_unchanged]

/- C3 machinery: the agreement invariant between a Decider state and
   the view the projection keeps for one entity. -/

def viewStateRel (views : Views) (aggregateId : String) (s : AccountState) : Prop :=
  match views aggregateId with
  | some v => v.balance = s.balance ∧ v.isClosed = s.isClosed
  | none => s.balance = 0 ∧ s.isClosed = false

lemma processEvent_applyEvent_rel (views : Views) (s : AccountState) (e : Event)
    (h : viewStateRel views e.aggregateId s) :
    viewStateRel (processEvent views e) e.aggregateId (applyEvent s e) := by
  rcases e with ⟨eid, aid, ts, ver, d⟩
  cases hv : views aid with
  | some v =>
      simp only [viewStateRel, hv] at h
      obtain ⟨hb, hc⟩ := h
      cases d <;>
        simp [viewStateRel, processEvent, applyToView, applyEvent, hv, hb, hc]
  | none =>
      simp only [viewStateRel, hv] at h
      obtain ⟨hb, hc⟩ := h
      cases d <;>
        simp [viewStateRel, processEvent, applyToView, applyEvent, initialView, hv, hb, hc]

lemma processAll_loadFromHistory_rel (events : List Event) (aggregateId : String)
    (views : Views) (s : AccountState)
    (hAll : ∀ e ∈ events, e.aggregateId = aggregateId)
    (h : viewStateRel views aggregateId s) :
    viewStateRel (processAll views events) aggregateId (loadFromHistory s events) := by
  induction events generalizing views s with
  | nil => exact h
  | cons e rest ih =>
      have he : e.aggregateId = aggregateId := hAll e (by simp)
      have hstep := processEvent_applyEvent_rel views s e (by rw [he]; exact h)
      rw [he] at hstep
      exact ih (processEvent views e) (applyEvent s e)
        (fun x hx => hAll x (by simp [hx])) hstep

/- Field names of the two record types exactly as declared in the
   source interfaces: AccountState in aggregate.ts and AccountView in
   the projection module.  Used to settle which fields the state and
   the view actually share. -/

def accountStateFields : List String :=
  ["aggregateId", "version", "userId", "name", "email", "balance", "currency", "isClosed"]

def accountViewFields : List String :=
  ["aggregateId", "userId", "name", "email", "balance", "currency", "isClosed", "lastActivity"]

/-- C3 counterexample: the claim asserts the two folds agree on the
shared fields version, balance and closed, but version is not a shared
field at all — the AccountView interface declares no version field, so
the Decider state and the Projection view cannot agree on it. -/
theorem version_not_a_field_of_the_view :
    "version" ∈ accountStateFields ∧ "version" ∉ accountViewFields := by
  decide

/-- C3 amended: both folds are deterministic (replaying the same fact
sequence twice yields identical results), and for every fact sequence
owned by one entity the Decider state and the Projection view agree on
the fields they actually share that the claim names — balance and
closed; the version lives on the state alone and equals the sequence
number of the last applied fact. -/
theorem decider_and_projection_folds_agree (aggregateId : String)
    (events : List Event) (hAll : ∀ e ∈ events, e.aggregateId = aggregateId) :
    loadFromHistory (initialState aggregateId) events
      = loadFromHistory (initialState aggregateId) events ∧
    processAll emptyViews events = processAll emptyViews events ∧
    (∀ v, processAll emptyViews events aggregateId = some v →
      v.balance = (loadFromHistory (initialState aggregateId) events).balance ∧
      v.isClosed = (loadFromHistory (initialState aggregateId) events).isClosed) ∧
    (∀ e, events.getLast? = some e →
      (loadFromHistory (initialState aggregateId) events).version = e.version) := by
  refine ⟨rfl, rfl, ?_, ?_⟩
  · intro v hv
    have h := processAll_loadFromHistory_rel events aggregateId emptyViews
      (initialState aggregateId) hAll (by constructor <;> rfl)
    simp only [viewStateRel, hv] at h
    exact h
  · intro e he
    exact loadFromHistory_version_getLast events (initialState aggregateId) e he

/-- C3 witness: folding the single deposit fact batchFact1 for entity
E, the resulting Decider state carries version 1 (the sequence of the fact)
and the projection view agrees with it on balance. -/
theorem decider_and_projection_folds_agree_witness :
    (loadFromHistory (initialState "E") [batchFact1]).version = batchFact1.version ∧
    processAll emptyViews [batchFact1] "E" =
      some { aggregateId := "E", userId := none, name := none, email := none,
             balance := 5, currency := "USD", isClosed := false, lastActivity := 1 } ∧
    (5 : Int) = (loadFromHistory (initialState "E") [batchFact1]).balance := by
  refine ⟨?_, rfl, ?_⟩
  · exact (decider_and_projection_folds_agree "E" [batchFact1] (by simp [batchFact1])).2.2.2
      batchFact1 rfl
  · exact ((decider_and_projection_folds_agree "E" [batchFact1] (by simp [batchFact1])).2.2.1
      { aggregateId := "E", userId := none, name := none, email := none,
        balance := 5, currency := "USD", isClosed := false, lastActivity := 1 } rfl).1

/-- C5: a withdraw-funds intent fails with a DomainError exactly when
the account is closed, or the amount is not positive, or the balance is
below the amount; otherwise it returns exactly one funds-withdrawn
fact carrying the amount and currency of the intent with sequence equal to
the current version plus one. -/
theorem withdraw_fails_iff_precondition_violated
    (s : AccountState) (commandId aggregateId : String) (ts : Nat)
    (amount : Int) (currency freshEventId : String) (now : Nat) :
    ((∃ err, (handleCommand s ⟨commandId, aggregateId, ts, .withdrawFunds amount currency⟩
        freshEventId now).1 = .error err) ↔
      (s.isClosed = true ∨ amount ≤ 0 ∨ s.balance < amount)) ∧
    (s.isClosed = false → 0 < amount → amount ≤ s.balance →
      (handleCommand s ⟨commandId, aggregateId, ts, .withdrawFunds amount currency⟩
          freshEventId now).1 =
        .ok [{ eventId := freshEventId, aggregateId := aggregateId, timestamp := now,
               version := s.version + 1, data := .fundsWithdrawn amount currency }]) := by
  constructor
  · by_cases h1 : s.isClosed = true <;> by_cases h2 : amount ≤ 0 <;>
      by_cases h3 : s.balance < amount <;>
      simp [handleCommand, h1, h2, h3]
  · intro hc hpos hle
    have h2 : ¬ amount ≤ 0 := by omega
    have h3 : ¬ s.balance < amount := by omega
    simp [handleCommand, hc, h2, h3]

def withdrawState : AccountState :=
  { initialState "E" with balance := 50, version := 4 }

/-- C5 witness: withdrawing 20 from an open account with balance 50 at
version 4 succeeds with exactly one funds-withdrawn fact at sequence 5
carrying amount 20 and currency USD. -/
theorem withdraw_fails_iff_precondition_violated_witness :
    (handleCommand withdrawState ⟨"c5", "E", 9, .withdrawFunds 20 "USD"⟩ "f5" 9).1 =
      .ok [{ eventId := "f5", aggregateId := "E", timestamp := 9, version := 5,
             data := .fundsWithdrawn 20 "USD" }] :=
  (withdraw_fails_iff_precondition_violated withdrawState "c5" "E" 9 20 "USD" "f5" 9).2
    rfl (by decide) (by decide)

/- The C6 scenario: create, deposit 100, withdraw 40, close, for one
   entity E, replayed through both the Decider and the Projection. -/

def scenarioState0 : AccountState := initialState "E"

def scenarioFact1 : Event :=
  { eventId := "f1", aggregateId := "E", timestamp := 1, version := 1,
    data := .userCreated "E" "Ada" "ada@example.com" }

def scenarioState1 : AccountState := loadFromHistory scenarioState0 [scenarioFact1]

def scenarioFact2 : Event :=
  { eventId := "f2", aggregateId := "E", timestamp := 2, version := 2,
    data := .fundsDeposited 100 "USD" }

def scenarioState2 : AccountState := loadFromHistory scenarioState1 [scenarioFact2]

def scenarioFact3 : Event :=
  { eventId := "f3", aggregateId := "E", timestamp := 3, version := 3,
    data := .fundsWithdrawn 40 "USD" }

def scenarioState3 : AccountState := loadFromHistory scenarioState2 [scenarioFact3]

def scenarioFact4 : Event :=
  { eventId := "f4", aggregateId := "E", timestamp := 4, version := 4,
    data := .accountClosed "done" }

def scenarioState4 : AccountState := loadFromHistory scenarioState3 [scenarioFact4]

def scenarioFacts : List Event :=
  [scenarioFact1, scenarioFact2, scenarioFact3, scenarioFact4]

def scenarioFinalView : AccountView :=
  { aggregateId := "E", userId := some "E", name := some "Ada",
    email := some "ada@example.com", balance := 60, currency := "USD",
    isClosed := true, lastActivity := 4 }

/-- C6: the four-step scenario on entity E — create identity, add funds
100, remove funds 40, close — has every step succeed, producing facts
with sequences 1, 2, 3, 4, the intermediate balances 0, 100, 60, and a
final Decider state with version 4, balance 60 and closed set; folding
the same four facts through the Projection yields a view for E with
balance 60 and closed set. -/
theorem four_step_scenario_final_state_and_view :
    (handleCommand scenarioState0 ⟨"c1", "E", 1, .createUser "Ada" "ada@example.com"⟩
        "f1" 1).1 = .ok [scenarioFact1] ∧
    (handleCommand scenarioState1 ⟨"c2", "E", 2, .depositFunds 100 "USD"⟩
        "f2" 2).1 = .ok [scenarioFact2] ∧
    (handleCommand scenarioState2 ⟨"c3", "E", 3, .withdrawFunds 40 "USD"⟩
        "f3" 3).1 = .ok [scenarioFact3] ∧
    (handleCommand scenarioState3 ⟨"c4", "E", 4, .closeAccount "done"⟩
        "f4" 4).1 = .ok [scenarioFact4] ∧
    scenarioState1.version = 1 ∧ scenarioState1.balance = 0 ∧
    scenarioState2.version = 2 ∧ scenarioState2.balance = 100 ∧
    scenarioState3.version = 3 ∧ scenarioState3.balance = 60 ∧
    scenarioState4.version = 4 ∧ scenarioState4.balance = 60 ∧
    scenarioState4.isClosed = true ∧
    processAll emptyViews scenarioFacts "E" = some scenarioFinalView ∧
    scenarioFinalView.balance = 60 ∧ scenarioFinalView.isClosed = true := by
  refine ⟨rfl, rfl, rfl, rfl, rfl, rfl, rfl, rfl, rfl, rfl, rfl, rfl, rfl, rfl, rfl, rfl⟩

/- The C9 divergence example: a deposit in EUR. -/

def eurFact : Event :=
  { eventId := "f9", aggregateId := "E", timestamp := 1, version := 1,
    data := .fundsDeposited 100 "EUR" }

def eurView : AccountView :=
  { aggregateId := "E", userId := none, name := none, email := none,
    balance := 100, currency := "EUR", isClosed := false, lastActivity := 1 }

/-- C9: a funds-deposited fact carrying currency C makes the
Projection set the currency of the view to C, while applyEvent of the Decider
leaves the currency of the state unchanged, so folding any fact sequence
from the zero state leaves the state currency at the initial USD; after
folding a single EUR deposit the state says USD, the view says EUR, and
they disagree. -/
theorem deposit_currency_decider_projection_divergence :
    (∀ (s : AccountState) (eid aid : String) (ts ver : Nat) (amt : Int) (cur : String),
      (applyEvent s ⟨eid, aid, ts, ver, .fundsDeposited amt cur⟩).currency = s.currency) ∧
    (∀ (aid : String) (events : List Event),
      (loadFromHistory (initialState aid) events).currency = "USD") ∧
    (∀ (views : Views) (eid aid : String) (ts ver : Nat) (amt : Int) (cur : String),
      ∃ v, processEvent views ⟨eid, aid, ts, ver, .fundsDeposited amt cur⟩ aid = some v ∧
        v.currency = cur) ∧
    ((loadFromHistory (initialState "E") [eurFact]).currency = "USD" ∧
      processAll emptyViews [eurFact] "E" = some eurView ∧
      eurView.currency = "EUR" ∧ "USD" ≠ "EUR") := by
  refine ⟨?_, ?_, ?_, rfl, rfl, rfl, by decide⟩
  · intro s eid aid ts ver amt cur
    rfl
  · intro aid events
    exact loadFromHistory_currency events (initialState aid)
  · intro views eid aid ts ver amt cur
    cases hv : views aid with
    | some v =>
        exact ⟨applyToView v ⟨eid, aid, ts, ver, .fundsDeposited amt cur⟩,
          by simp [processEvent, hv], rfl⟩
    | none =>
        exact ⟨applyToView (initialView aid ts) ⟨eid, aid, ts, ver, .fundsDeposited amt cur⟩,
          by simp [processEvent, hv], rfl⟩
